import Mathlib

/-!
Shallow embedding of `cmd/node/main.go` of the adnl-tunnel repository:
the payment-channel bootstrap (`preparePaymentChannel`), the payments
startup sequence (`preparePayments`), and the operator-console command
behaviors (`speed` sampler toggle, `balance`/`capacity` aggregation).

External effects (listing channels, reading the operator prompt,
deploying a channel on-chain, polling channel state, database reads)
are supplied through explicit environment records; the embedded
functions mirror the Go control flow over those results.
-/

namespace AdnlTunnel

/-- Go `[]byte`, modelled as a list of byte values. -/
abbrev Bytes := List Nat

/-- Errors surfaced by the payment subsystem. `notFound` models
`db.ErrNotFound`; `wrap` models `fmt.Errorf("...: %w", err)`. -/
inductive PErr where
  | notFound
  | msg (s : String)
  | wrap (s : String) (e : PErr)
deriving Repr, DecidableEq

/-- `db.ChannelStatus`: the core distinguishes `Inactive` and `Active`;
other statuses are opaque. -/
inductive ChannelStatus where
  | Inactive
  | Active
  | Other (n : Nat)
deriving Repr, DecidableEq

/-- The counterparty's on-chain side of a channel (`channel.TheirOnchain`):
its public key and deposited amount (`*big.Int`). -/
structure OnchainSide where
  key : Bytes
  deposited : Int
deriving Repr, DecidableEq

/-- `db.Channel` as used by `main.go`: on-chain address, the counterparty
side, status, and the two readiness flags (`Our.IsReady()`, `Their.IsReady()`). -/
structure Channel where
  address : Bytes
  theirOnchain : OnchainSide
  status : ChannelStatus
  ourReady : Bool
  theirReady : Bool
deriving Repr, DecidableEq

/-- `ed25519.PublicKeySize`. -/
def ed25519PublicKeySize : Nat := 32

/-! ## preparePaymentChannel: the channel scan loop -/

/-- The `for _, channel := range list` loop of `preparePaymentChannel`
(main.go lines 551-565), carrying the `best`/`bestAmount` accumulator.
`Sum.inl k` is the early `return channel.TheirOnchain.Key` when the
explicitly requested key `ch` matches; `Sum.inr` is the accumulator state
after the loop. `best = none` models the Go `var best []byte` nil value. -/
def scanChannels (ch : Bytes) : List Channel → Option Bytes → Int → Bytes ⊕ (Option Bytes × Int)
  | [], best, bestAmount => Sum.inr (best, bestAmount)
  | channel :: rest, best, bestAmount =>
    if ch.length > 0 then
      if channel.theirOnchain.key = ch then
        Sum.inl channel.theirOnchain.key
      else
        scanChannels ch rest best bestAmount
    else if bestAmount ≤ channel.theirOnchain.deposited then
      scanChannels ch rest (some channel.theirOnchain.key) channel.theirOnchain.deposited
    else
      scanChannels ch rest best bestAmount

/-- Outcome of the readiness-wait loop (main.go lines 598-613) run against a
finite prefix of `GetChannel` poll results: `done` when both readiness flags
were observed true, `failed e` when a non-`NotFound` error aborted the wait,
`pending` when the supplied prefix was exhausted with the loop still running. -/
inductive PollOutcome where
  | done
  | failed (e : PErr)
  | pending
deriving Repr, DecidableEq

/-- The readiness-wait loop of `preparePaymentChannel`: retry on
`ErrNotFound`, abort on any other error, retry while either readiness flag
is false, break when both are true. -/
def waitReady : List (Except PErr Channel) → PollOutcome
  | [] => .pending
  | r :: rest =>
    match r with
    | .error e => if e = PErr.notFound then waitReady rest else .failed e
    | .ok channel =>
      if !channel.ourReady || !channel.theirReady then waitReady rest
      else .done

/-- The sleep durations (in milliseconds) performed by the readiness-wait
loop over the same poll-result prefix: one `time.Sleep(500 * time.Millisecond)`
per retried poll. -/
def waitSleeps : List (Except PErr Channel) → List Nat
  | [] => []
  | r :: rest =>
    match r with
    | .error e => if e = PErr.notFound then 500 :: waitSleeps rest else []
    | .ok channel =>
      if !channel.ourReady || !channel.theirReady then 500 :: waitSleeps rest
      else []

/-- External results consumed by `preparePaymentChannel`: the
`ListChannels` result, the operator prompt line (`fmt.Scanln`) and its
base64 decoding, the `OpenChannelWithNode` result (the deployed channel's
on-chain address), and the successive `GetChannel` poll results. -/
structure ChannelEnv where
  listResult : Except PErr (List Channel)
  promptRead : Except PErr String
  promptDecode : Option Bytes
  deployResult : Except PErr Bytes
  pollResults : List (Except PErr Channel)
deriving Repr

/-- The prompt step of `preparePaymentChannel` (main.go lines 574-584): when
no counterparty key was supplied, read a line from the operator and base64
decode it; otherwise keep the supplied key. -/
def resolveTarget (ch : Bytes) (env : ChannelEnv) : Except PErr Bytes :=
  if ch.length = 0 then
    match env.promptRead with
    | .error e => .error (.wrap "failed to read input" e)
    | .ok _ =>
      match env.promptDecode with
      | none => .error (.msg "invalid id formet")
      | some b => .ok b
  else .ok ch

/-- The deployment fallback of `preparePaymentChannel` (main.go lines
571-616): prompt for a counterparty key when none was supplied, validate
its length, deploy via `OpenChannelWithNode`, then run the readiness-wait
loop; on success the function returns `ch`, the counterparty key.
`none` models a call that has not returned (the readiness wait still
polling). -/
def deployPhase (ch : Bytes) (env : ChannelEnv) : Option (Except PErr Bytes) :=
  match resolveTarget ch env with
  | .error e => some (.error e)
  | .ok ch =>
    if ch.length ≠ ed25519PublicKeySize then
      some (.error (.msg "invalid channel id length"))
    else
      match env.deployResult with
      | .error e => some (.error (.wrap "failed to deploy channel with node" e))
      | .ok _addr =>
        match waitReady env.pollResults with
        | .failed e => some (.error (.wrap "failed to get channel" e))
        | .pending => none
        | .done => some (.ok ch)

/-- `preparePaymentChannel(ctx, pmt, ch)` (main.go lines 543-617) over an
explicit environment. `some (.ok k)` is a successful return of the byte
value `k`; `some (.error e)` an error return; `none` a call still blocked
in the readiness-wait loop. -/
def preparePaymentChannel (ch : Bytes) (env : ChannelEnv) : Option (Except PErr Bytes) :=
  match env.listResult with
  | .error e => some (.error (.wrap "failed to list channels" e))
  | .ok list =>
    match scanChannels ch list none 0 with
    | .inl key => some (.ok key)
    | .inr (best, _bestAmount) =>
      match best with
      | some k => some (.ok k)
      | none => deployPhase ch env

/-! ## preparePayments: startup sequence as an event trace -/

/-- Observable startup events of `preparePayments` (main.go lines 435-541):
setting the migration version, running one migration, starting the chain
scanner at a sequence number, registering the scanner as the channel-update
observer (`fdb.SetOnChannelUpdated(sc.OnChannelUpdate)`), and one observer
notification (`sc.OnChannelUpdate(ctx, channel, resume)`). -/
inductive Ev where
  | setMigrationVersion (v : Nat)
  | runMigration (v : Nat)
  | startScanner (seqno : Nat)
  | registerObserver
  | notifyUpdate (c : Channel) (resume : Bool)
deriving Repr, DecidableEq

/-- Whether an event is an observer notification. -/
def Ev.isNotify : Ev → Bool
  | .notifyUpdate _ _ => true
  | _ => false

/-- Whether an event is a migration run. -/
def Ev.isRunMigration : Ev → Bool
  | .runMigration _ => true
  | _ => false

/-- Whether `preparePayments` completed or aborted via `log.Fatal`. -/
inductive Outcome where
  | ok
  | fatal
deriving Repr, DecidableEq

/-- External results consumed by `preparePayments`: whether the leveldb
store was freshly created, the result of `SetMigrationVersion`, the stored
migration version and whether replaying migrations succeeds, the total
migration count (`len(db.Migrations)`), the `GetBlockOffset` result, whether
`StartSmall` succeeds, the `GetChannels` result, and whether wallet and
service initialization succeed. -/
structure PaymentsEnv where
  freshDb : Bool
  setMigrationOk : Bool
  storedMigrationVersion : Nat
  runMigrationsOk : Bool
  migrationsTotal : Nat
  blockOffset : Except PErr Nat
  scannerStartOk : Bool
  channels : Except PErr (List Channel)
  walletInitOk : Bool
  serviceInitOk : Bool
deriving Repr

/-- Modelled from the spec: `db.RunMigrations` (external to src/) runs all
migrations whose version exceeds the stored MigrationVersion, in ascending
order up to the total, and advances the stored version to the total. -/
def runMigrationsTrace (stored total : Nat) : List Ev :=
  ((List.range' (stored + 1) (total - stored)).map Ev.runMigration)
    ++ [Ev.setMigrationVersion total]

/-- The replay loop of `preparePayments` (main.go lines 519-523): one
synchronous resume-flagged observer notification per channel whose status
is not `Inactive`, in store order. -/
def replayChannels : List Channel → List Ev
  | [] => []
  | c :: rest =>
    if c.status ≠ ChannelStatus.Inactive then
      Ev.notifyUpdate c true :: replayChannels rest
    else
      replayChannels rest

/-- `preparePayments` from the scanner start on (main.go lines 505-540):
start the scanner at `seqno`, register it as the channel-update observer,
load the channel list, replay non-Inactive channels, then initialize the
wallet and the payments service. Any step failure is fatal. -/
def scannerPhase (env : PaymentsEnv) (t : List Ev) (seqno : Nat) : List Ev × Outcome :=
  let t := t ++ [Ev.startScanner seqno]
  if !env.scannerStartOk then (t, .fatal)
  else
    let t := t ++ [Ev.registerObserver]
    match env.channels with
    | .error _ => (t, .fatal)
    | .ok chList =>
      let t := t ++ replayChannels chList
      if !env.walletInitOk then (t, .fatal)
      else if !env.serviceInitOk then (t, .fatal)
      else (t, .ok)

/-- The block-offset read of `preparePayments` (main.go lines 490-498):
`ErrNotFound` leaves the scan cursor at zero, any other error is fatal,
success uses the persisted sequence number. -/
def cursorPhase (env : PaymentsEnv) (t : List Ev) : List Ev × Outcome :=
  match env.blockOffset with
  | .error e =>
    if e = PErr.notFound then scannerPhase env t 0
    else (t, .fatal)
  | .ok s => scannerPhase env t s

/-- `preparePayments` (main.go lines 435-541) as an event trace plus
outcome: the migration phase (fresh store sets the version to the total;
pre-existing store replays pending migrations), then the cursor read, the
scanner start, observer registration and channel replay. -/
def preparePayments (env : PaymentsEnv) : List Ev × Outcome :=
  if env.freshDb then
    if !env.setMigrationOk then ([], .fatal)
    else cursorPhase env [Ev.setMigrationVersion env.migrationsTotal]
  else
    if !env.runMigrationsOk then ([], .fatal)
    else cursorPhase env (runMigrationsTrace env.storedMigrationVersion env.migrationsTotal)

/-! ## Operator console: speed sampler and balance aggregation -/

/-- Per-section packet counters returned by `GetPacketsStats`. -/
structure Stats where
  routed : Nat
  sent : Nat
  received : Nat
deriving Repr, DecidableEq

/-- A point-in-time snapshot: section identifier to counters, in map
iteration order. -/
abbrev Snapshot := List (Bytes × Stats)

/-- One logged per-second rate line of the speed sampler: the section and
the first-differences of the three counters (computed with Go `uint64`
subtraction on monotonic counters; modelled on `Int` as the exact delta). -/
structure RateLine where
  sec : Bytes
  routedRate : Int
  sentRate : Int
  receivedRate : Int
deriving Repr, DecidableEq

/-- Association-list lookup standing for the Go map index `prev[s]`. -/
def lookupSec (snap : Snapshot) (s : Bytes) : Option Stats :=
  match snap with
  | [] => none
  | (s', st) :: rest => if s' = s then some st else lookupSec rest s

/-- The rate lines logged in one sampler iteration (main.go lines 279-289):
for each section of the current snapshot that is also present in `prev`,
the first-difference of each counter. -/
def ratesFor (prev : Snapshot) : Snapshot → List RateLine
  | [] => []
  | (s, st) :: rest =>
    match lookupSec prev s with
    | some p =>
      { sec := s
        routedRate := (st.routed : Int) - p.routed
        sentRate := (st.sent : Int) - p.sent
        receivedRate := (st.received : Int) - p.received } :: ratesFor prev rest
    | none => ratesFor prev rest

/-- The speed-sampler task (main.go lines 272-292) over a discrete timeline:
`prev` is the snapshot captured at enable time, `ticks` the per-second
snapshots, and `cancelAt` the iteration at whose top cancellation is
observed. Each surviving iteration logs the rate lines against `prev` and
replaces `prev` with the current snapshot. -/
def samplerRun (prev : Snapshot) : List Snapshot → Nat → List RateLine
  | _, 0 => []
  | [], _ => []
  | st :: rest, n + 1 => ratesFor prev st ++ samplerRun st rest n

/-- The number of per-second iterations the sampler completes before
exiting: bounded both by the cancellation point and the elapsed ticks. -/
def samplerIterations : List Snapshot → Nat → Nat
  | _, 0 => 0
  | [], _ => 0
  | _ :: rest, n + 1 => samplerIterations rest n + 1

/-- The console's `speed` toggle (main.go lines 267-296): the context-done
check flips the sampler between off and on. -/
def speedToggle (b : Bool) : Bool := !b

/-- The sampler state after a command sequence, starting from a given state
(the context starts cancelled, i.e. `false`): only `speed` flips it. -/
def consoleSpeedState : List String → Bool → Bool
  | [], b => b
  | cmd :: rest, b =>
    consoleSpeedState rest (if cmd = "speed" then speedToggle b else b)

/-- Log events of the `balance`/`capacity` command branch. -/
inductive CmdLog where
  | errPaymentsDisabled
  | errListChannels
  | errCalcBalance
  | printedTotal (v : Int)
deriving Repr, DecidableEq

/-- Whether the console loop continues to the next command (it never
terminates from within a command branch). -/
inductive LoopCtl where
  | next
deriving Repr, DecidableEq

/-- The aggregation loop of the `balance`/`capacity` branch (main.go lines
321-329): a failed per-channel `CalcBalance` is logged and skipped, a
successful one is added to the running amount. Returns the final amount and
the per-channel error logs. -/
def aggregateBalance (calcBalance : Channel → Except PErr Int) :
    List Channel → Int → Int × List CmdLog
  | [], amount => (amount, [])
  | c :: rest, amount =>
    match calcBalance c with
    | .error _ =>
      ((aggregateBalance calcBalance rest amount).1,
        CmdLog.errCalcBalance :: (aggregateBalance calcBalance rest amount).2)
    | .ok v => aggregateBalance calcBalance rest (amount + v)

/-- The `balance`/`capacity` command branch (main.go lines 309-336):
payments disabled reports a local error and continues; a failed channel
listing reports and continues; otherwise the summed amount is printed and
the loop continues. -/
def balanceCommand (paymentsEnabled : Bool)
    (listResult : Except PErr (List Channel))
    (calcBalance : Channel → Except PErr Int) : LoopCtl × List CmdLog :=
  if !paymentsEnabled then (.next, [CmdLog.errPaymentsDisabled])
  else
    match listResult with
    | .error _ => (.next, [CmdLog.errListChannels])
    | .ok list =>
      (.next, (aggregateBalance calcBalance list 0).2
        ++ [CmdLog.printedTotal (aggregateBalance calcBalance list 0).1])

/-! ## Lemmas about the channel scan loop -/

/-- With an explicit counterparty key, the scan returns that key as soon as
some listed channel's counterparty matches it. -/
lemma scanChannels_inl_of_mem (ch : Bytes) (hch : 0 < ch.length) :
    ∀ (list : List Channel) (b : Option Bytes) (a : Int),
      (∃ c ∈ list, c.theirOnchain.key = ch) →
      scanChannels ch list b a = Sum.inl ch := by
  intro list
  induction list with
  | nil =>
    intro b a h
    obtain ⟨c, hc, _⟩ := h
    exact absurd hc (List.not_mem_nil c)
  | cons c rest ih =>
    intro b a h
    by_cases hk : c.theirOnchain.key = ch
    · simp [scanChannels, hch, hk]
    · have hrest : ∃ c' ∈ rest, c'.theirOnchain.key = ch := by
        obtain ⟨c', hc', hkey⟩ := h
        rcases List.mem_cons.mp hc' with h1 | h2
        · subst h1; exact absurd hkey hk
        · exact ⟨c', h2, hkey⟩
      simpa [scanChannels, hch, hk] using ih b a hrest

/-- With an explicit counterparty key that matches no listed channel, the
scan finishes with its accumulator untouched. -/
lemma scanChannels_inr_of_not_mem (ch : Bytes) (hch : 0 < ch.length) :
    ∀ (list : List Channel) (b : Option Bytes) (a : Int),
      (∀ c ∈ list, c.theirOnchain.key ≠ ch) →
      scanChannels ch list b a = Sum.inr (b, a) := by
  intro list
  induction list with
  | nil => intro b a _; rfl
  | cons c rest ih =>
    intro b a h
    have hk : c.theirOnchain.key ≠ ch := h c (List.mem_cons_self c rest)
    simpa [scanChannels, hch, hk] using
      ih b a (fun c' hc' => h c' (List.mem_cons_of_mem c hc'))

/-- Without an explicit counterparty, if every deposit is strictly below the
running best amount the scan never replaces the accumulator. -/
lemma scanChannels_noreplace :
    ∀ (list : List Channel) (b : Option Bytes) (a : Int),
      (∀ c ∈ list, c.theirOnchain.deposited < a) →
      scanChannels [] list b a = Sum.inr (b, a) := by
  intro list
  induction list with
  | nil => intro b a _; rfl
  | cons c rest ih =>
    intro b a h
    have hc : ¬ (a ≤ c.theirOnchain.deposited) :=
      not_le.mpr (h c (List.mem_cons_self c rest))
    simpa [scanChannels, hc] using
      ih b a (fun c' hc' => h c' (List.mem_cons_of_mem c hc'))

/-- Without an explicit counterparty, as soon as some deposit reaches the
running best amount the scan ends on the channel that attains the maximum
deposit last: every deposit is bounded by it and everything after it is
strictly smaller. -/
lemma scanChannels_best_spec :
    ∀ (list : List Channel) (b : Option Bytes) (a : Int),
      (∃ c ∈ list, a ≤ c.theirOnchain.deposited) →
      ∃ c l₁ l₂, list = l₁ ++ c :: l₂ ∧
        scanChannels [] list b a
          = Sum.inr (some c.theirOnchain.key, c.theirOnchain.deposited) ∧
        a ≤ c.theirOnchain.deposited ∧
        (∀ c' ∈ list, c'.theirOnchain.deposited ≤ c.theirOnchain.deposited) ∧
        (∀ c' ∈ l₂, c'.theirOnchain.deposited < c.theirOnchain.deposited) := by
  intro list
  induction list with
  | nil =>
    intro b a h
    obtain ⟨c, hc, _⟩ := h
    exact absurd hc (List.not_mem_nil c)
  | cons c rest ih =>
    intro b a h
    by_cases hle : a ≤ c.theirOnchain.deposited
    · by_cases hrest : ∃ c' ∈ rest, c.theirOnchain.deposited ≤ c'.theirOnchain.deposited
      · obtain ⟨cm, l₁, l₂, heq, hrun, hle2, hmax, hafter⟩ :=
          ih (some c.theirOnchain.key) c.theirOnchain.deposited hrest
        refine ⟨cm, c :: l₁, l₂, by rw [heq]; rfl, ?_, le_trans hle hle2, ?_, hafter⟩
        · simpa [scanChannels, hle] using hrun
        · intro c' hc'
          rcases List.mem_cons.mp hc' with h1 | h2
          · subst h1; exact hle2
          · exact hmax c' h2
      · push_neg at hrest
        refine ⟨c, [], rest, rfl, ?_, hle, ?_, hrest⟩
        · simpa [scanChannels, hle] using
            scanChannels_noreplace rest (some c.theirOnchain.key)
              c.theirOnchain.deposited hrest
        · intro c' hc'
          rcases List.mem_cons.mp hc' with h1 | h2
          · subst h1; exact le_refl _
          · exact le_of_lt (hrest c' h2)
    · have hclt : c.theirOnchain.deposited < a := not_le.mp hle
      have hrest : ∃ c' ∈ rest, a ≤ c'.theirOnchain.deposited := by
        obtain ⟨c', hc', hd⟩ := h
        rcases List.mem_cons.mp hc' with h1 | h2
        · subst h1; exact absurd hd hle
        · exact ⟨c', h2, hd⟩
      obtain ⟨cm, l₁, l₂, heq, hrun, hle2, hmax, hafter⟩ := ih b a hrest
      refine ⟨cm, c :: l₁, l₂, by rw [heq]; rfl, ?_, hle2, ?_, hafter⟩
      · simpa [scanChannels, hle] using hrun
      · intro c' hc'
        rcases List.mem_cons.mp hc' with h1 | h2
        · subst h1; exact le_of_lt (lt_of_lt_of_le hclt hle2)
        · exact hmax c' h2

/-- An early return of the scan is always a listed channel's counterparty
key. -/
lemma scanChannels_inl_mem (ch : Bytes) :
    ∀ (list : List Channel) (b : Option Bytes) (a : Int) (k : Bytes),
      scanChannels ch list b a = Sum.inl k →
      ∃ c ∈ list, k = c.theirOnchain.key := by
  intro list
  induction list with
  | nil => intro b a k h; simp [scanChannels] at h
  | cons c rest ih =>
    intro b a k h
    by_cases hch : ch.length > 0
    · by_cases hk : c.theirOnchain.key = ch
      · simp [scanChannels, hch, hk] at h
        exact ⟨c, List.mem_cons_self c rest, by rw [hk, h]⟩
      · simp only [scanChannels, if_pos hch, if_neg hk] at h
        obtain ⟨c', hc', hk'⟩ := ih _ _ _ h
        exact ⟨c', List.mem_cons_of_mem c hc', hk'⟩
    · by_cases hle : a ≤ c.theirOnchain.deposited
      · simp only [scanChannels, if_neg hch, if_pos hle] at h
        obtain ⟨c', hc', hk'⟩ := ih _ _ _ h
        exact ⟨c', List.mem_cons_of_mem c hc', hk'⟩
      · simp only [scanChannels, if_neg hch, if_neg hle] at h
        obtain ⟨c', hc', hk'⟩ := ih _ _ _ h
        exact ⟨c', List.mem_cons_of_mem c hc', hk'⟩

/-- A best key produced by the scan is either the initial accumulator or a
listed channel's counterparty key. -/
lemma scanChannels_inr_some_mem (ch : Bytes) :
    ∀ (list : List Channel) (b : Option Bytes) (a : Int) (k : Bytes) (a' : Int),
      scanChannels ch list b a = Sum.inr (some k, a') →
      b = some k ∨ ∃ c ∈ list, k = c.theirOnchain.key := by
  intro list
  induction list with
  | nil =>
    intro b a k a' h
    simp [scanChannels] at h
    exact Or.inl h.1
  | cons c rest ih =>
    intro b a k a' h
    by_cases hch : ch.length > 0
    · by_cases hk : c.theirOnchain.key = ch
      · simp [scanChannels, hch, hk] at h
      · simp only [scanChannels, if_pos hch, if_neg hk] at h
        rcases ih _ _ _ _ h with h1 | ⟨c', hc', hk'⟩
        · exact Or.inl h1
        · exact Or.inr ⟨c', List.mem_cons_of_mem c hc', hk'⟩
    · by_cases hle : a ≤ c.theirOnchain.deposited
      · simp only [scanChannels, if_neg hch, if_pos hle] at h
        rcases ih _ _ _ _ h with h1 | ⟨c', hc', hk'⟩
        · have : k = c.theirOnchain.key := by
            injection h1 with h1'
            exact h1'.symm
          exact Or.inr ⟨c, List.mem_cons_self c rest, this⟩
        · exact Or.inr ⟨c', List.mem_cons_of_mem c hc', hk'⟩
      · simp only [scanChannels, if_neg hch, if_neg hle] at h
        rcases ih _ _ _ _ h with h1 | ⟨c', hc', hk'⟩
        · exact Or.inl h1
        · exact Or.inr ⟨c', List.mem_cons_of_mem c hc', hk'⟩

/-- A successful target resolution yields the supplied key when one was
supplied, and the operator-prompted decoded key otherwise. -/
lemma resolveTarget_ok (ch : Bytes) (env : ChannelEnv) (k : Bytes)
    (h : resolveTarget ch env = Except.ok k) :
    (ch.length ≠ 0 ∧ k = ch) ∨ (ch.length = 0 ∧ env.promptDecode = some k) := by
  unfold resolveTarget at h
  by_cases hch : ch.length = 0
  · rw [if_pos hch] at h
    cases hpr : env.promptRead with
    | error e => rw [hpr] at h; simp at h
    | ok s =>
      rw [hpr] at h
      cases hpd : env.promptDecode with
      | none => rw [hpd] at h; simp at h
      | some b =>
        rw [hpd] at h
        simp at h
        exact Or.inr ⟨hch, by rw [h]⟩
  · rw [if_neg hch] at h
    simp at h
    exact Or.inl ⟨hch, h.symm⟩

/-- A successful deployment-phase return value is exactly the resolved
deploy target. -/
lemma deployPhase_ok_target (ch : Bytes) (env : ChannelEnv) (k : Bytes)
    (h : deployPhase ch env = some (Except.ok k)) :
    resolveTarget ch env = Except.ok k := by
  unfold deployPhase at h
  cases htgt : resolveTarget ch env with
  | error e => rw [htgt] at h; simp at h
  | ok t =>
    rw [htgt] at h
    by_cases hlen : t.length = ed25519PublicKeySize
    · simp [hlen] at h
      cases hdep : env.deployResult with
      | error e => rw [hdep] at h; simp at h
      | ok addr =>
        rw [hdep] at h
        cases hw : waitReady env.pollResults with
        | failed e => rw [hw] at h; simp at h
        | pending => rw [hw] at h; simp at h
        | done =>
          rw [hw] at h
          simp at h
          rw [h]
    · simp [hlen] at h

/-- When the channel listing succeeds, `preparePaymentChannel` is the scan
followed by the deployment fallback. -/
lemma preparePaymentChannel_ok_list (ch : Bytes) (env : ChannelEnv)
    (list : List Channel) (hlist : env.listResult = Except.ok list) :
    preparePaymentChannel ch env =
      match scanChannels ch list none 0 with
      | Sum.inl key => some (Except.ok key)
      | Sum.inr (best, _bestAmount) =>
        match best with
        | some k => some (Except.ok k)
        | none => deployPhase ch env := by
  unfold preparePaymentChannel
  rw [hlist]

/-! ## Concrete values used by witnesses and counterexamples -/

/-- A concrete active channel with both readiness flags set. -/
def mkChannel (a k : Bytes) (d : Int) : Channel :=
  { address := a
    theirOnchain := { key := k, deposited := d }
    status := ChannelStatus.Active
    ourReady := true
    theirReady := true }

/-- A concrete environment whose channel listing returns `list`; the prompt
decodes to nothing and deployment fails, so any run reaching them is
visible. -/
def mkEnv (list : List Channel) : ChannelEnv :=
  { listResult := .ok list
    promptRead := .ok ""
    promptDecode := none
    deployResult := .error (.msg "unreachable")
    pollResults := [] }

/-- A channel whose on-chain address `[7]` differs from its counterparty
public key (32 bytes of `1`). -/
def chanKeyAddr : Channel := mkChannel [7] (List.replicate 32 1) 5

/-- Active channels with deposits 10, 50, 50, 20 in iteration order, with
pairwise distinct counterparty keys `[1]`, `[2]`, `[3]`, `[4]`. -/
def tieList : List Channel :=
  [mkChannel [1] [1] 10, mkChannel [2] [2] 50, mkChannel [3] [3] 50, mkChannel [4] [4] 20]

/-! ## Claim theorems: channel selection -/

/-- C1 (counterexample): a successful `preparePaymentChannel` call does not
return the selected channel's on-chain address. With the explicit
counterparty key equal to `chanKeyAddr`'s counterparty key, the call
succeeds and returns that key, which differs from the channel's on-chain
address. -/
theorem preparePaymentChannel_not_address :
    preparePaymentChannel (List.replicate 32 1) (mkEnv [chanKeyAddr]) =
      some (Except.ok (List.replicate 32 1)) ∧
    (List.replicate 32 1 : Bytes) ≠ chanKeyAddr.address := by
  exact ⟨rfl, by decide⟩

/-- C1 (amended): for every successful call of `preparePaymentChannel`, the
returned value is the selected or deployed channel's counterparty public
key — the key of a listed active channel, the explicitly supplied key, or
the operator-prompted key of the newly deployed channel — not the channel's
on-chain address. -/
theorem preparePaymentChannel_ok_is_counterparty_key
    (ch : Bytes) (env : ChannelEnv) (list : List Channel) (k : Bytes)
    (hlist : env.listResult = Except.ok list)
    (hres : preparePaymentChannel ch env = some (Except.ok k)) :
    (∃ c ∈ list, k = c.theirOnchain.key) ∨
      (ch.length ≠ 0 ∧ k = ch) ∨
      (ch.length = 0 ∧ env.promptDecode = some k) := by
  rw [preparePaymentChannel_ok_list ch env list hlist] at hres
  cases hscan : scanChannels ch list none 0 with
  | inl key =>
    rw [hscan] at hres
    simp at hres
    obtain ⟨c, hc, hk⟩ := scanChannels_inl_mem ch list none 0 key hscan
    exact Or.inl ⟨c, hc, by rw [← hres]; exact hk⟩
  | inr p =>
    obtain ⟨best, amt⟩ := p
    rw [hscan] at hres
    cases best with
    | some b =>
      simp at hres
      rcases scanChannels_inr_some_mem ch list none 0 b amt hscan with h1 | ⟨c, hc, hk⟩
      · simp at h1
      · exact Or.inl ⟨c, hc, by rw [← hres]; exact hk⟩
    | none =>
      simp at hres
      have htgt := deployPhase_ok_target ch env k hres
      rcases resolveTarget_ok ch env k htgt with ⟨h1, h2⟩ | ⟨h1, h2⟩
      · exact Or.inr (Or.inl ⟨h1, h2⟩)
      · exact Or.inr (Or.inr ⟨h1, h2⟩)

/-- C1 (witness): the amended claim at a concrete input: the successful
return value is the listed channel's counterparty key. -/
theorem preparePaymentChannel_ok_is_counterparty_key_witness :
    (∃ c ∈ [chanKeyAddr], (List.replicate 32 1 : Bytes) = c.theirOnchain.key) ∨
      ((List.replicate 32 1 : Bytes).length ≠ 0 ∧
        (List.replicate 32 1 : Bytes) = List.replicate 32 1) ∨
      ((List.replicate 32 1 : Bytes).length = 0 ∧
        (mkEnv [chanKeyAddr]).promptDecode = some (List.replicate 32 1)) :=
  preparePaymentChannel_ok_is_counterparty_key (List.replicate 32 1)
    (mkEnv [chanKeyAddr]) [chanKeyAddr] (List.replicate 32 1) rfl rfl

/-- C2: without an explicit counterparty, the selector returns the key of a
channel with the maximum deposited amount, ties resolved to the last such
channel in iteration order (everything after it is strictly smaller); in
particular on deposits 10, 50, 50, 20 it returns the later 50-deposit
channel's key `[3]`. -/
theorem preparePaymentChannel_best_deposit :
    (∀ (env : ChannelEnv) (list : List Channel),
      env.listResult = Except.ok list → list ≠ [] →
      (∀ c ∈ list, 0 ≤ c.theirOnchain.deposited) →
      ∃ c l₁ l₂, list = l₁ ++ c :: l₂ ∧
        preparePaymentChannel [] env = some (Except.ok c.theirOnchain.key) ∧
        (∀ c' ∈ list, c'.theirOnchain.deposited ≤ c.theirOnchain.deposited) ∧
        (∀ c' ∈ l₂, c'.theirOnchain.deposited < c.theirOnchain.deposited)) ∧
    preparePaymentChannel [] (mkEnv tieList) = some (Except.ok [3]) := by
  constructor
  · intro env list hlist hne hdep
    obtain ⟨c0, hc0⟩ : ∃ c0, c0 ∈ list := by
      cases list with
      | nil => exact absurd rfl hne
      | cons x xs => exact ⟨x, List.mem_cons_self x xs⟩
    obtain ⟨c, l₁, l₂, heq, hrun, _, hmax, hafter⟩ :=
      scanChannels_best_spec list none 0 ⟨c0, hc0, hdep c0 hc0⟩
    refine ⟨c, l₁, l₂, heq, ?_, hmax, hafter⟩
    rw [preparePaymentChannel_ok_list [] env list hlist, hrun]
  · rfl

/-- C2 (witness): the general statement applied to the concrete tie list. -/
theorem preparePaymentChannel_best_deposit_witness :
    ∃ c l₁ l₂, tieList = l₁ ++ c :: l₂ ∧
      preparePaymentChannel [] (mkEnv tieList) = some (Except.ok c.theirOnchain.key) ∧
      (∀ c' ∈ tieList, c'.theirOnchain.deposited ≤ c.theirOnchain.deposited) ∧
      (∀ c' ∈ l₂, c'.theirOnchain.deposited < c.theirOnchain.deposited) :=
  preparePaymentChannel_best_deposit.1 (mkEnv tieList) tieList rfl
    (by decide) (by decide)

/-- C3: with an explicit counterparty key, a matching active channel is
returned immediately (its key equals the requested key) regardless of every
deposit amount and readiness flag; with no matching channel the call falls
through to the deployment phase, whose deploy target is the requested key:
when deployment succeeds and the readiness wait completes, the call returns
the requested key. -/
theorem preparePaymentChannel_explicit_counterparty
    (ch : Bytes) (env : ChannelEnv) (list : List Channel)
    (hch : 0 < ch.length) (hlist : env.listResult = Except.ok list) :
    ((∃ c ∈ list, c.theirOnchain.key = ch) →
      preparePaymentChannel ch env = some (Except.ok ch)) ∧
    ((∀ c ∈ list, c.theirOnchain.key ≠ ch) →
      preparePaymentChannel ch env = deployPhase ch env) ∧
    ((∀ c ∈ list, c.theirOnchain.key ≠ ch) →
      ch.length = ed25519PublicKeySize →
      ∀ a, env.deployResult = Except.ok a →
      waitReady env.pollResults = PollOutcome.done →
      preparePaymentChannel ch env = some (Except.ok ch)) := by
  have hfall : (∀ c ∈ list, c.theirOnchain.key ≠ ch) →
      preparePaymentChannel ch env = deployPhase ch env := by
    intro hnone
    rw [preparePaymentChannel_ok_list ch env list hlist,
      scanChannels_inr_of_not_mem ch hch list none 0 hnone]
  refine ⟨?_, hfall, ?_⟩
  · intro hmem
    rw [preparePaymentChannel_ok_list ch env list hlist,
      scanChannels_inl_of_mem ch hch list none 0 hmem]
  · intro hnone hlen a hdep hw
    rw [hfall hnone]
    unfold deployPhase resolveTarget
    rw [if_neg (by omega : ¬ ch.length = 0)]
    simp [hlen, hdep, hw]

/-- C3 (witness): both branches at concrete inputs: a matching channel is
returned immediately, and with no match plus a successful deployment the
requested key is the deploy target and is returned. -/
theorem preparePaymentChannel_explicit_counterparty_witness :
    preparePaymentChannel (List.replicate 32 1) (mkEnv [chanKeyAddr]) =
      some (Except.ok (List.replicate 32 1)) ∧
    preparePaymentChannel (List.replicate 32 2)
        { listResult := .ok [chanKeyAddr]
          promptRead := .ok ""
          promptDecode := none
          deployResult := .ok [9]
          pollResults := [.ok (mkChannel [9] (List.replicate 32 2) 0)] } =
      some (Except.ok (List.replicate 32 2)) := by
  constructor
  · exact (preparePaymentChannel_explicit_counterparty (List.replicate 32 1)
      (mkEnv [chanKeyAddr]) [chanKeyAddr] (by decide) rfl).1
      ⟨chanKeyAddr, by decide, by decide⟩
  · exact (preparePaymentChannel_explicit_counterparty (List.replicate 32 2)
      _ [chanKeyAddr] (by decide) rfl).2.2 (by decide) (by decide) [9] rfl rfl

/-- C10: without an explicit counterparty, a non-empty active-channel list
(with the on-chain invariant that deposits are non-negative) always yields
one of the listed channels — the selection result does not depend on the
prompt, deployment, or polling environment, so the prompt-and-deploy
fallback is never reached. -/
theorem preparePaymentChannel_nonempty_never_deploys
    (list : List Channel) (hne : list ≠ [])
    (hdep : ∀ c ∈ list, 0 ≤ c.theirOnchain.deposited) :
    ∃ c ∈ list, ∀ env : ChannelEnv, env.listResult = Except.ok list →
      preparePaymentChannel [] env = some (Except.ok c.theirOnchain.key) := by
  obtain ⟨c0, hc0⟩ : ∃ c0, c0 ∈ list := by
    cases list with
    | nil => exact absurd rfl hne
    | cons x xs => exact ⟨x, List.mem_cons_self x xs⟩
  obtain ⟨c, l₁, l₂, heq, hrun, _, _, _⟩ :=
    scanChannels_best_spec list none 0 ⟨c0, hc0, hdep c0 hc0⟩
  refine ⟨c, by rw [heq]; simp, ?_⟩
  intro env hlist
  rw [preparePaymentChannel_ok_list [] env list hlist, hrun]

/-- C10 (witness): a single active channel with deposit zero is still
selected, for any environment listing it. -/
theorem preparePaymentChannel_nonempty_never_deploys_witness :
    ∃ c ∈ [mkChannel [9] [5] 0], ∀ env : ChannelEnv,
      env.listResult = Except.ok [mkChannel [9] [5] 0] →
      preparePaymentChannel [] env = some (Except.ok c.theirOnchain.key) :=
  preparePaymentChannel_nonempty_never_deploys [mkChannel [9] [5] 0]
    (by decide) (by decide)

/-! ## Lemmas about the startup trace -/

/-- The migration-phase events of `preparePayments` when it does not abort. -/
def migTrace (env : PaymentsEnv) : List Ev :=
  if env.freshDb then [Ev.setMigrationVersion env.migrationsTotal]
  else runMigrationsTrace env.storedMigrationVersion env.migrationsTotal

/-- The scan cursor resolved by `preparePayments`: zero when the read
failed, the persisted value otherwise. -/
def resolvedSeqno (env : PaymentsEnv) : Nat :=
  match env.blockOffset with
  | .error _ => 0
  | .ok s => s

/-- With a successful migration phase, `preparePayments` continues with the
cursor phase on the migration trace. -/
lemma preparePayments_eq_cursorPhase (env : PaymentsEnv)
    (hmig : (if env.freshDb then env.setMigrationOk else env.runMigrationsOk) = true) :
    preparePayments env = cursorPhase env (migTrace env) := by
  unfold preparePayments migTrace
  by_cases hf : env.freshDb <;> simp [hf] at hmig ⊢ <;> simp [hmig]

/-- The scanner phase, when the scanner starts and the channel listing
succeeds, appends the start, registration and replay events in that order
(whatever the wallet and service initialization outcomes). -/
lemma scannerPhase_trace (env : PaymentsEnv) (t : List Ev) (s : Nat)
    (hsc : env.scannerStartOk = true) (chList : List Channel)
    (hch : env.channels = Except.ok chList) :
    (scannerPhase env t s).1 =
      t ++ [Ev.startScanner s, Ev.registerObserver] ++ replayChannels chList := by
  unfold scannerPhase
  rw [hsc, hch]
  by_cases hw : env.walletInitOk <;> by_cases hs2 : env.serviceInitOk <;>
    simp [hw, hs2]

/-- The full decomposition of the startup trace when every step up to the
channel replay succeeds. -/
lemma preparePayments_trace_decomp (env : PaymentsEnv) (chList : List Channel)
    (hmig : (if env.freshDb then env.setMigrationOk else env.runMigrationsOk) = true)
    (hsc : env.scannerStartOk = true)
    (hch : env.channels = Except.ok chList)
    (hbo : env.blockOffset = Except.error PErr.notFound ∨
      ∃ s, env.blockOffset = Except.ok s) :
    (preparePayments env).1 =
      migTrace env ++ [Ev.startScanner (resolvedSeqno env), Ev.registerObserver]
        ++ replayChannels chList := by
  rw [preparePayments_eq_cursorPhase env hmig]
  unfold cursorPhase resolvedSeqno
  rcases hbo with hbo | ⟨s, hbo⟩ <;> rw [hbo] <;>
    simp [scannerPhase_trace env _ _ hsc chList hch]

/-- The replay loop emits exactly the resume-flagged notifications of the
non-Inactive channels, in store order. -/
lemma replayChannels_eq_filter_map :
    ∀ list : List Channel,
      replayChannels list =
        (list.filter fun c => c.status ≠ ChannelStatus.Inactive).map
          (fun c => Ev.notifyUpdate c true) := by
  intro list
  induction list with
  | nil => rfl
  | cons c rest ih =>
    by_cases h : c.status = ChannelStatus.Inactive <;>
      simp [replayChannels, h, ih]

/-- Migration-phase events are never observer notifications. -/
lemma migTrace_not_notify (env : PaymentsEnv) :
    ∀ e ∈ migTrace env, e.isNotify = false := by
  intro e he
  unfold migTrace runMigrationsTrace at he
  by_cases hf : env.freshDb
  · simp [hf] at he
    subst he; rfl
  · simp [hf] at he
    rcases he with ⟨v, _, rfl⟩ | rfl <;> rfl

/-- C4: at resumed startup, given a store holding `chList`, the scanner
registration event precedes every replay notification, and the replay is
exactly one synchronous resume-flagged notification per non-Inactive
channel, in the order the store returns them, with nothing after them. -/
theorem preparePayments_register_before_replay
    (env : PaymentsEnv) (chList : List Channel)
    (hmig : (if env.freshDb then env.setMigrationOk else env.runMigrationsOk) = true)
    (hsc : env.scannerStartOk = true)
    (hch : env.channels = Except.ok chList)
    (hbo : env.blockOffset = Except.error PErr.notFound ∨
      ∃ s, env.blockOffset = Except.ok s) :
    ∃ t₁ : List Ev,
      (preparePayments env).1 = t₁ ++ Ev.registerObserver :: replayChannels chList ∧
      (∀ e ∈ t₁, e.isNotify = false) ∧
      replayChannels chList =
        (chList.filter fun c => c.status ≠ ChannelStatus.Inactive).map
          (fun c => Ev.notifyUpdate c true) := by
  refine ⟨migTrace env ++ [Ev.startScanner (resolvedSeqno env)], ?_, ?_,
    replayChannels_eq_filter_map chList⟩
  · rw [preparePayments_trace_decomp env chList hmig hsc hch hbo]
    simp
  · intro e he
    rcases List.mem_append.mp he with h1 | h2
    · exact migTrace_not_notify env e h1
    · simp at h2
      subst h2; rfl

/-- C4 (witness): a concrete resumed startup with one Active, one Inactive
and one opaque-status channel: the trace registers the observer first and
then replays exactly the two non-Inactive channels in store order. -/
theorem preparePayments_register_before_replay_witness :
    ∃ t₁ : List Ev,
      (preparePayments
        { freshDb := false, setMigrationOk := true, storedMigrationVersion := 1
          runMigrationsOk := true, migrationsTotal := 3
          blockOffset := Except.ok 44, scannerStartOk := true
          channels := Except.ok [mkChannel [1] [1] 10,
            { mkChannel [2] [2] 20 with status := ChannelStatus.Inactive },
            { mkChannel [3] [3] 30 with status := ChannelStatus.Other 4 }]
          walletInitOk := true, serviceInitOk := true }).1 =
        t₁ ++ Ev.registerObserver :: replayChannels [mkChannel [1] [1] 10,
          { mkChannel [2] [2] 20 with status := ChannelStatus.Inactive },
          { mkChannel [3] [3] 30 with status := ChannelStatus.Other 4 }] ∧
      (∀ e ∈ t₁, e.isNotify = false) ∧
      replayChannels [mkChannel [1] [1] 10,
          { mkChannel [2] [2] 20 with status := ChannelStatus.Inactive },
          { mkChannel [3] [3] 30 with status := ChannelStatus.Other 4 }] =
        ([mkChannel [1] [1] 10,
          { mkChannel [2] [2] 20 with status := ChannelStatus.Inactive },
          { mkChannel [3] [3] 30 with status := ChannelStatus.Other 4 }].filter
            fun c => c.status ≠ ChannelStatus.Inactive).map
          (fun c => Ev.notifyUpdate c true) :=
  preparePayments_register_before_replay _ _ rfl rfl rfl (Or.inr ⟨44, rfl⟩)

/-- Replay notifications are never migration runs. -/
lemma replayChannels_filter_runMigration (list : List Channel) :
    (replayChannels list).filter Ev.isRunMigration = [] := by
  induction list with
  | nil => rfl
  | cons c rest ih =>
    by_cases h : c.status = ChannelStatus.Inactive <;>
      simp [replayChannels, h, ih, Ev.isRunMigration]

/-- The scanner phase adds no migration-run events. -/
lemma scannerPhase_filter_runMigration (env : PaymentsEnv) (t : List Ev) (s : Nat) :
    ((scannerPhase env t s).1).filter Ev.isRunMigration = t.filter Ev.isRunMigration := by
  unfold scannerPhase
  by_cases h1 : env.scannerStartOk
  · cases h2 : env.channels with
    | error e =>
      simp [h1, h2, List.filter_append, Ev.isRunMigration]
    | ok chList =>
      by_cases h3 : env.walletInitOk <;> by_cases h4 : env.serviceInitOk <;>
        simp [h1, h2, h3, h4, List.filter_append, Ev.isRunMigration,
          replayChannels_filter_runMigration]
  · simp [h1, List.filter_append, Ev.isRunMigration]

/-- The cursor phase adds no migration-run events. -/
lemma cursorPhase_filter_runMigration (env : PaymentsEnv) (t : List Ev) :
    ((cursorPhase env t).1).filter Ev.isRunMigration = t.filter Ev.isRunMigration := by
  unfold cursorPhase
  cases h : env.blockOffset with
  | error e =>
    by_cases he : e = PErr.notFound <;>
      simp [he, scannerPhase_filter_runMigration]
  | ok s => simp [scannerPhase_filter_runMigration]

/-- The scanner phase only extends the trace it is given. -/
lemma scannerPhase_extends (env : PaymentsEnv) (t : List Ev) (s : Nat) :
    ∃ u, (scannerPhase env t s).1 = t ++ u := by
  unfold scannerPhase
  by_cases h1 : env.scannerStartOk
  · cases h2 : env.channels with
    | error e =>
      exact ⟨[Ev.startScanner s, Ev.registerObserver], by simp [h1]⟩
    | ok chList =>
      by_cases h3 : env.walletInitOk <;> by_cases h4 : env.serviceInitOk <;>
        exact ⟨[Ev.startScanner s, Ev.registerObserver] ++ replayChannels chList,
          by simp [h1, h3, h4]⟩
  · exact ⟨[Ev.startScanner s], by simp [h1]⟩

/-- The cursor phase only extends the trace it is given. -/
lemma cursorPhase_extends (env : PaymentsEnv) (t : List Ev) :
    ∃ u, (cursorPhase env t).1 = t ++ u := by
  unfold cursorPhase
  cases h : env.blockOffset with
  | error e =>
    by_cases he : e = PErr.notFound
    · simp [he]; exact scannerPhase_extends env t 0
    · simp [he]
  | ok s => exact scannerPhase_extends env t s

/-- Migration runs survive the migration-run filter unchanged. -/
lemma filter_runMigration_map (l : List Nat) :
    (l.map Ev.runMigration).filter Ev.isRunMigration = l.map Ev.runMigration := by
  induction l with
  | nil => rfl
  | cons v rest ih => simp [Ev.isRunMigration, ih]

/-- C5: on a fresh store the first event sets the migration version to the
total migration count and no migration runs anywhere in the startup trace;
on a pre-existing store the migration runs in the trace are exactly the
versions from the stored version plus one up to the total, in ascending
order; a failure of either step aborts startup fatally with no events. -/
theorem preparePayments_migration_semantics (env : PaymentsEnv) :
    (env.freshDb = true → env.setMigrationOk = true →
      (preparePayments env).1.filter Ev.isRunMigration = [] ∧
      (preparePayments env).1.head? =
        some (Ev.setMigrationVersion env.migrationsTotal)) ∧
    (env.freshDb = false → env.runMigrationsOk = true →
      (preparePayments env).1.filter Ev.isRunMigration =
        (List.range' (env.storedMigrationVersion + 1)
          (env.migrationsTotal - env.storedMigrationVersion)).map Ev.runMigration) ∧
    (env.freshDb = true → env.setMigrationOk = false →
      preparePayments env = ([], Outcome.fatal)) ∧
    (env.freshDb = false → env.runMigrationsOk = false →
      preparePayments env = ([], Outcome.fatal)) := by
  refine ⟨?_, ?_, ?_, ?_⟩
  · intro hf hok
    have hmig : (if env.freshDb then env.setMigrationOk else env.runMigrationsOk) = true := by
      rw [hf, if_pos rfl]; exact hok
    rw [preparePayments_eq_cursorPhase env hmig]
    constructor
    · rw [cursorPhase_filter_runMigration]
      simp [migTrace, hf, Ev.isRunMigration]
    · obtain ⟨u, hu⟩ := cursorPhase_extends env (migTrace env)
      rw [hu]
      simp [migTrace, hf]
  · intro hf hok
    have hmig : (if env.freshDb then env.setMigrationOk else env.runMigrationsOk) = true := by
      rw [hf]; simpa using hok
    rw [preparePayments_eq_cursorPhase env hmig, cursorPhase_filter_runMigration]
    simp [migTrace, hf, runMigrationsTrace, List.filter_append,
      filter_runMigration_map, Ev.isRunMigration]
  · intro hf hok
    unfold preparePayments
    rw [hf]
    simp [hok]
  · intro hf hok
    unfold preparePayments
    rw [hf]
    simp [hok]

/-- C5 (witness): a fresh store sets version 3 first and runs no migration;
a pre-existing store at stored version 1 of 3 runs exactly migrations 2 and
3 in that order. -/
theorem preparePayments_migration_semantics_witness :
    ((preparePayments
        { freshDb := true, setMigrationOk := true, storedMigrationVersion := 0
          runMigrationsOk := true, migrationsTotal := 3
          blockOffset := Except.ok 44, scannerStartOk := true
          channels := Except.ok [], walletInitOk := true, serviceInitOk := true }).1.filter
        Ev.isRunMigration = [] ∧
      (preparePayments
        { freshDb := true, setMigrationOk := true, storedMigrationVersion := 0
          runMigrationsOk := true, migrationsTotal := 3
          blockOffset := Except.ok 44, scannerStartOk := true
          channels := Except.ok [], walletInitOk := true, serviceInitOk := true }).1.head? =
        some (Ev.setMigrationVersion 3)) ∧
    (preparePayments
        { freshDb := false, setMigrationOk := true, storedMigrationVersion := 1
          runMigrationsOk := true, migrationsTotal := 3
          blockOffset := Except.ok 44, scannerStartOk := true
          channels := Except.ok [], walletInitOk := true, serviceInitOk := true }).1.filter
        Ev.isRunMigration = [Ev.runMigration 2, Ev.runMigration 3] := by
  constructor
  · exact (preparePayments_migration_semantics _).1 rfl rfl
  · have h := (preparePayments_migration_semantics
      { freshDb := false, setMigrationOk := true, storedMigrationVersion := 1
        runMigrationsOk := true, migrationsTotal := 3
        blockOffset := Except.ok 44, scannerStartOk := true
        channels := Except.ok [], walletInitOk := true, serviceInitOk := true }).2.1 rfl rfl
    rw [h]
    rfl

/-- The scanner-start event at the resolved cursor is always part of the
scanner phase's trace. -/
lemma scannerPhase_mem_start (env : PaymentsEnv) (t : List Ev) (s : Nat) :
    Ev.startScanner s ∈ (scannerPhase env t s).1 := by
  unfold scannerPhase
  by_cases h1 : env.scannerStartOk
  · cases h2 : env.channels with
    | error e => simp [h1]
    | ok chList =>
      by_cases h3 : env.walletInitOk <;> by_cases h4 : env.serviceInitOk <;>
        simp [h1, h3, h4]
  · simp [h1]

/-- Migration-phase events are never scanner starts. -/
lemma migTrace_no_start (env : PaymentsEnv) :
    ∀ e ∈ migTrace env, ∀ s, e ≠ Ev.startScanner s := by
  intro e he s
  unfold migTrace runMigrationsTrace at he
  by_cases hf : env.freshDb
  · simp [hf] at he
    subst he; simp
  · simp [hf] at he
    rcases he with ⟨v, _, rfl⟩ | rfl <;> simp

/-- C6: after a successful migration phase, a `NotFound` cursor read starts
the scanner from sequence number zero; any other read error aborts startup
fatally without starting the scanner; a successful read starts the scanner
from the persisted sequence number. -/
theorem preparePayments_cursor_semantics (env : PaymentsEnv)
    (hmig : (if env.freshDb then env.setMigrationOk else env.runMigrationsOk) = true) :
    (env.blockOffset = Except.error PErr.notFound →
      Ev.startScanner 0 ∈ (preparePayments env).1) ∧
    (∀ e, env.blockOffset = Except.error e → e ≠ PErr.notFound →
      (preparePayments env).2 = Outcome.fatal ∧
      ∀ s, Ev.startScanner s ∉ (preparePayments env).1) ∧
    (∀ s, env.blockOffset = Except.ok s →
      Ev.startScanner s ∈ (preparePayments env).1) := by
  rw [preparePayments_eq_cursorPhase env hmig]
  refine ⟨?_, ?_, ?_⟩
  · intro hbo
    unfold cursorPhase
    rw [hbo]
    simp [scannerPhase_mem_start]
  · intro e hbo hne
    unfold cursorPhase
    rw [hbo]
    simp only [if_neg hne]
    refine ⟨trivial, ?_⟩
    intro s hs
    exact absurd rfl (migTrace_no_start env _ hs s)
  · intro s hbo
    unfold cursorPhase
    rw [hbo]
    exact scannerPhase_mem_start env _ s

/-- A concrete startup environment with every step succeeding, fresh store,
three total migrations, and the given block-offset read result. -/
def mkPEnv (bo : Except PErr Nat) : PaymentsEnv :=
  { freshDb := true, setMigrationOk := true, storedMigrationVersion := 0
    runMigrationsOk := true, migrationsTotal := 3
    blockOffset := bo, scannerStartOk := true
    channels := Except.ok [], walletInitOk := true, serviceInitOk := true }

/-- C6 (witness): the three cursor-read outcomes at concrete environments:
`NotFound` starts from zero, another error is fatal with no scanner start,
success starts from the persisted value 44. -/
theorem preparePayments_cursor_semantics_witness :
    Ev.startScanner 0 ∈
      (preparePayments (mkPEnv (Except.error PErr.notFound))).1 ∧
    ((preparePayments (mkPEnv (Except.error (PErr.msg "io")))).2 = Outcome.fatal ∧
      ∀ s, Ev.startScanner s ∉
        (preparePayments (mkPEnv (Except.error (PErr.msg "io")))).1) ∧
    Ev.startScanner 44 ∈ (preparePayments (mkPEnv (Except.ok 44))).1 := by
  refine ⟨?_, ?_, ?_⟩
  · exact (preparePayments_cursor_semantics
      (mkPEnv (Except.error PErr.notFound)) rfl).1 rfl
  · exact (preparePayments_cursor_semantics
      (mkPEnv (Except.error (PErr.msg "io"))) rfl).2.1 (PErr.msg "io") rfl (by decide)
  · exact (preparePayments_cursor_semantics
      (mkPEnv (Except.ok 44)) rfl).2.2 44 rfl

/-! ## The readiness-wait loop -/

/-- Every sleep of the readiness-wait loop is exactly 500 ms. -/
lemma waitSleeps_all_500 :
    ∀ res : List (Except PErr Channel), ∀ d ∈ waitSleeps res, d = 500 := by
  intro res
  induction res with
  | nil => intro d hd; simp [waitSleeps] at hd
  | cons r rest ih =>
    intro d hd
    cases r with
    | error e =>
      by_cases he : e = PErr.notFound
      · simp [waitSleeps, he] at hd
        rcases hd with hd | hd
        · exact hd
        · exact ih d hd
      · simp [waitSleeps, he] at hd
    | ok c =>
      by_cases hr : (!c.ourReady || !c.theirReady) = true
      · simp [waitSleeps, hr] at hd
        rcases hd with hd | hd
        · exact hd
        · exact ih d hd
      · simp [waitSleeps, hr] at hd

/-- A run of `NotFound` polls alone never terminates the wait loop. -/
lemma waitReady_replicate_notFound :
    ∀ n, waitReady (List.replicate n (Except.error PErr.notFound)) =
      PollOutcome.pending := by
  intro n
  induction n with
  | zero => rfl
  | succ m ih => simpa [List.replicate_succ, waitReady] using ih

/-- With an empty active-channel list the call is the deployment fallback. -/
lemma preparePaymentChannel_empty_list (ch : Bytes) (env : ChannelEnv)
    (hlist : env.listResult = Except.ok []) :
    preparePaymentChannel ch env = deployPhase ch env := by
  rw [preparePaymentChannel_ok_list ch env [] hlist]
  rfl

/-- With an explicit valid-length key and a successful deployment, the
deployment fallback is decided by the readiness-wait outcome. -/
lemma deployPhase_explicit (ch : Bytes) (env : ChannelEnv)
    (hpos : ¬ ch.length = 0) (hlen : ch.length = ed25519PublicKeySize)
    (a : Bytes) (hdep : env.deployResult = Except.ok a) :
    deployPhase ch env =
      match waitReady env.pollResults with
      | PollOutcome.failed e =>
          some (Except.error (PErr.wrap "failed to get channel" e))
      | PollOutcome.pending => none
      | PollOutcome.done => some (Except.ok ch) := by
  unfold deployPhase resolveTarget
  rw [if_neg hpos]
  simp [hlen, hdep]

/-- C7: after a deployment the readiness wait polls at a fixed 500 ms
interval until both readiness flags are true: every performed sleep is
500 ms; a `NotFound` poll is retried; any other poll error aborts the wait
and is returned to the caller wrapped; a not-yet-ready channel is retried;
a run of `NotFound` results alone never completes the loop, so the wait has
no overall deadline. -/
theorem waitReady_polling
    (res rest : List (Except PErr Channel)) (e : PErr) (c : Channel)
    (env : ChannelEnv) (ch a : Bytes) (n : Nat) :
    (∀ d ∈ waitSleeps res, d = 500) ∧
    waitReady (Except.error PErr.notFound :: rest) = waitReady rest ∧
    (e ≠ PErr.notFound →
      waitReady (Except.error e :: rest) = PollOutcome.failed e) ∧
    (c.ourReady = true → c.theirReady = true →
      waitReady (Except.ok c :: rest) = PollOutcome.done) ∧
    (c.ourReady = false ∨ c.theirReady = false →
      waitReady (Except.ok c :: rest) = waitReady rest) ∧
    waitReady (List.replicate n (Except.error PErr.notFound)) =
      PollOutcome.pending ∧
    (env.listResult = Except.ok [] → ch.length = ed25519PublicKeySize →
      env.deployResult = Except.ok a →
      waitReady env.pollResults = PollOutcome.failed e →
      preparePaymentChannel ch env =
        some (Except.error (PErr.wrap "failed to get channel" e))) := by
  refine ⟨waitSleeps_all_500 res, by simp [waitReady], ?_, ?_, ?_,
    waitReady_replicate_notFound n, ?_⟩
  · intro he
    simp [waitReady, he]
  · intro h1 h2
    simp [waitReady, h1, h2]
  · intro h
    rcases h with h | h <;> simp [waitReady, h]
  · intro hlist hlen hdep hw
    rw [preparePaymentChannel_empty_list ch env hlist,
      deployPhase_explicit ch env (by rw [hlen]; decide) hlen a hdep, hw]

/-- The environment of a deployment whose first status poll fails with an
error other than `NotFound`. -/
def envPoll : ChannelEnv :=
  { listResult := .ok []
    promptRead := .ok ""
    promptDecode := none
    deployResult := .ok [9]
    pollResults := [Except.error (PErr.msg "io")] }

/-- C7 (witness): one retried `NotFound` poll sleeps 500 ms; a non-NotFound
poll error fails the wait; two `NotFound` polls leave the loop pending; the
full call returns the wrapped poll error. -/
theorem waitReady_polling_witness :
    (∀ d ∈ waitSleeps [Except.error PErr.notFound], d = 500) ∧
    waitReady [Except.error (PErr.msg "io")] = PollOutcome.failed (PErr.msg "io") ∧
    waitReady (List.replicate 2 (Except.error PErr.notFound)) = PollOutcome.pending ∧
    preparePaymentChannel (List.replicate 32 2) envPoll =
      some (Except.error (PErr.wrap "failed to get channel" (PErr.msg "io"))) := by
  have h := waitReady_polling [Except.error PErr.notFound] [] (PErr.msg "io")
    (mkChannel [1] [1] 0) envPoll (List.replicate 32 2) [9] 2
  exact ⟨h.1, h.2.2.1 (by decide), h.2.2.2.2.2.1,
    h.2.2.2.2.2.2 rfl (by decide) rfl rfl⟩

/-! ## The speed sampler -/

/-- Each iteration logs at most one rate line per section of the current
snapshot. -/
lemma ratesFor_length_le (prev : Snapshot) :
    ∀ st : Snapshot, (ratesFor prev st).length ≤ st.length := by
  intro st
  induction st with
  | nil => simp [ratesFor]
  | cons q rest ih =>
    obtain ⟨s, stt⟩ := q
    cases h : lookupSec prev s with
    | some p =>
      simp only [ratesFor, h, List.length_cons]
      omega
    | none =>
      simp only [ratesFor, h, List.length_cons]
      omega

/-- Whenever a section is present in both the previous and current
snapshot, its rate line with the exact first-differences is logged. -/
lemma ratesFor_mem (prev : Snapshot) :
    ∀ (st : Snapshot) (s : Bytes) (cur p : Stats),
      (s, cur) ∈ st → lookupSec prev s = some p →
      ({ sec := s, routedRate := (cur.routed : Int) - p.routed,
         sentRate := (cur.sent : Int) - p.sent,
         receivedRate := (cur.received : Int) - p.received } : RateLine) ∈
        ratesFor prev st := by
  intro st
  induction st with
  | nil => intro s cur p h _; simp at h
  | cons q rest ih =>
    intro s cur p h hl
    obtain ⟨s', stt⟩ := q
    rcases List.mem_cons.mp h with h1 | h2
    · injection h1 with hs hc
      subst hs; subst hc
      simp [ratesFor, hl]
    · have hmem := ih s cur p h2 hl
      cases hl' : lookupSec prev s' with
      | some q' =>
        simp only [ratesFor, hl']
        exact List.mem_cons_of_mem _ hmem
      | none =>
        simp only [ratesFor, hl']
        exact hmem

/-- A sampler cancelled at the top of its loop logs nothing further. -/
lemma samplerRun_cancelled (prev : Snapshot) (ticks : List Snapshot) :
    samplerRun prev ticks 0 = [] := by
  cases ticks <;> rfl

/-- A sampler cancelled at the top of its loop completes no iteration. -/
lemma samplerIterations_cancelled (ticks : List Snapshot) :
    samplerIterations ticks 0 = 0 := by
  cases ticks <;> rfl

/-- C8: the `speed` command alternates the sampler and two successive
commands end with it off; when at most one tick elapses between them (and
snapshots have a single section) at most one rate line is logged; the first
iteration's deltas are computed against the enable-time snapshot `prev`
(which is then replaced by the current one), so a section present in both
gets the exact first-difference, never a zero baseline; once cancellation
is observed at the top of the loop, no iteration runs and nothing more is
logged. -/
theorem speed_sampler_toggle
    (prev st : Snapshot) (ticks rest : List Snapshot) (cancelAt n : Nat)
    (s : Bytes) (cur p : Stats) (b : Bool) :
    consoleSpeedState ["speed", "speed"] false = false ∧
    consoleSpeedState ["speed"] b = !b ∧
    (cancelAt ≤ 1 → (∀ t ∈ ticks, t.length ≤ 1) →
      (samplerRun prev ticks cancelAt).length ≤ 1) ∧
    samplerRun prev (st :: rest) (n + 1) = ratesFor prev st ++ samplerRun st rest n ∧
    ((s, cur) ∈ st → lookupSec prev s = some p →
      ({ sec := s, routedRate := (cur.routed : Int) - p.routed,
         sentRate := (cur.sent : Int) - p.sent,
         receivedRate := (cur.received : Int) - p.received } : RateLine) ∈
        ratesFor prev st) ∧
    samplerRun prev ticks 0 = [] ∧
    samplerIterations ticks 0 = 0 := by
  refine ⟨rfl, by simp [consoleSpeedState, speedToggle], ?_, rfl,
    ratesFor_mem prev st s cur p, samplerRun_cancelled prev ticks,
    samplerIterations_cancelled ticks⟩
  intro hc hsec
  cases cancelAt with
  | zero => simp [samplerRun_cancelled]
  | succ m =>
    have hm : m = 0 := by omega
    subst hm
    cases ticks with
    | nil => simp [samplerRun]
    | cons t0 trest =>
      have h1 : samplerRun prev (t0 :: trest) 1 =
          ratesFor prev t0 ++ samplerRun t0 trest 0 := rfl
      rw [h1, samplerRun_cancelled]
      simp only [List.append_nil]
      exact le_trans (ratesFor_length_le prev t0)
        (hsec t0 (List.mem_cons_self t0 trest))

/-- C8 (witness): the toggle and sampler facts at a concrete single-section
timeline: enabling with snapshot counters (5,5,5) and one elapsed tick with
counters (7,6,5) logs exactly one line whose deltas are 2, 1, 0 — computed
against the enable-time snapshot, not zero. -/
theorem speed_sampler_toggle_witness :
    consoleSpeedState ["speed", "speed"] false = false ∧
    (samplerRun [([1], ⟨5, 5, 5⟩)] [[([1], ⟨7, 6, 5⟩)]] 1).length ≤ 1 ∧
    ({ sec := [1], routedRate := (7 : Int) - 5, sentRate := (6 : Int) - 5,
       receivedRate := (5 : Int) - 5 } : RateLine) ∈
      ratesFor [([1], ⟨5, 5, 5⟩)] [([1], ⟨7, 6, 5⟩)] ∧
    samplerRun [([1], ⟨5, 5, 5⟩)] [[([1], ⟨7, 6, 5⟩)]] 0 = [] := by
  have h := speed_sampler_toggle [([1], ⟨5, 5, 5⟩)] [([1], ⟨7, 6, 5⟩)]
    [[([1], ⟨7, 6, 5⟩)]] [] 1 0 [1] ⟨7, 6, 5⟩ ⟨5, 5, 5⟩ false
  exact ⟨h.1, h.2.2.1 (by decide) (by decide),
    h.2.2.2.2.1 (by decide) rfl, h.2.2.2.2.2.1⟩

/-! ## The balance and capacity commands -/

/-- The successful value of a per-channel balance computation. -/
def okValue (r : Except PErr Int) : Option Int :=
  match r with
  | .error _ => none
  | .ok v => some v

/-- Whether a per-channel balance computation failed. -/
def isErr (r : Except PErr Int) : Bool :=
  match r with
  | .error _ => true
  | .ok _ => false

/-- The aggregation loop sums exactly the successful per-channel values and
logs one calc-balance error per failing channel. -/
lemma aggregateBalance_spec (f : Channel → Except PErr Int) :
    ∀ (list : List Channel) (a : Int),
      (aggregateBalance f list a).1 =
        a + ((list.filterMap fun c => okValue (f c)).sum) ∧
      (aggregateBalance f list a).2 =
        List.replicate (list.filter fun c => isErr (f c)).length
          CmdLog.errCalcBalance := by
  intro list
  induction list with
  | nil => intro a; simp [aggregateBalance]
  | cons c rest ih =>
    intro a
    cases hf : f c with
    | error e =>
      constructor
      · simp only [aggregateBalance, hf, (ih a).1, List.filterMap_cons, okValue]
      · simp [aggregateBalance, hf, (ih a).2, isErr, List.replicate_succ]
    | ok v =>
      constructor
      · simp only [aggregateBalance, hf, (ih (a + v)).1, List.filterMap_cons, okValue]
        simp [List.sum_cons]
        omega
      · simp [aggregateBalance, hf, (ih (a + v)).2, isErr]

/-- C9: `balance`/`capacity` with payments disabled reports a local error
and the console loop continues; with payments enabled it reports the sum of
the successful per-channel computations, logging one error per failing
channel — in particular with exactly one failing channel among several it
logs that single failure and still prints the sum over the remaining
channels. -/
theorem balance_capacity_degrade
    (f : Channel → Except PErr Int) (list : List Channel)
    (lr : Except PErr (List Channel)) :
    balanceCommand false lr f = (LoopCtl.next, [CmdLog.errPaymentsDisabled]) ∧
    balanceCommand true (Except.ok list) f =
      (LoopCtl.next,
        List.replicate (list.filter fun c => isErr (f c)).length
            CmdLog.errCalcBalance
          ++ [CmdLog.printedTotal ((list.filterMap fun c => okValue (f c)).sum)]) ∧
    ((list.filter fun c => isErr (f c)).length = 1 →
      balanceCommand true (Except.ok list) f =
        (LoopCtl.next,
          [CmdLog.errCalcBalance,
            CmdLog.printedTotal ((list.filterMap fun c => okValue (f c)).sum)])) := by
  have h2 : balanceCommand true (Except.ok list) f =
      (LoopCtl.next,
        List.replicate (list.filter fun c => isErr (f c)).length
            CmdLog.errCalcBalance
          ++ [CmdLog.printedTotal ((list.filterMap fun c => okValue (f c)).sum)]) := by
    have hred : balanceCommand true (Except.ok list) f =
        (LoopCtl.next, (aggregateBalance f list 0).2
          ++ [CmdLog.printedTotal (aggregateBalance f list 0).1]) := rfl
    rw [hred, (aggregateBalance_spec f list 0).1, (aggregateBalance_spec f list 0).2]
    simp
  refine ⟨rfl, h2, ?_⟩
  intro hone
  rw [h2, hone]
  rfl

/-- Per-channel balance computation failing exactly on the channel at
address `[2]`. -/
def calcFail (c : Channel) : Except PErr Int :=
  if c.address = [2] then Except.error (PErr.msg "calc")
  else Except.ok c.theirOnchain.deposited

/-- Three active channels whose middle one fails balance computation. -/
def calcList : List Channel :=
  [mkChannel [1] [1] 10, mkChannel [2] [2] 20, mkChannel [3] [3] 30]

/-- C9 (witness): with one failing channel among three, the command logs
that single failure and prints the sum 40 of the remaining channels; with
payments disabled it reports the local error and continues. -/
theorem balance_capacity_degrade_witness :
    (calcList.filter fun c => isErr (calcFail c)).length = 1 ∧
    balanceCommand true (Except.ok calcList) calcFail =
      (LoopCtl.next,
        [CmdLog.errCalcBalance, CmdLog.printedTotal 40]) ∧
    balanceCommand false (Except.ok calcList) calcFail =
      (LoopCtl.next, [CmdLog.errPaymentsDisabled]) := by
  have h := balance_capacity_degrade calcFail calcList (Except.ok calcList)
  exact ⟨by decide, h.2.2 (by decide), h.1⟩

end AdnlTunnel
